import Mathlib

/-!
# Verification of the Flipper client plugin registry and dispatcher

Shallow embedding of `src/xplat/Flipper/FlipperClient.cpp`: the plugin
registry, the connection table, the bridge-connected flag, the five
externally triggered entry points (`addPlugin`, `removePlugin`,
`onConnected`, `onDisconnected`, `onMessageReceived`) and the error
containment wrapper `performAndReportError`.

The C++ `std::map` fields `plugins_` and `connections_` are embedded as
association lists ordered strictly by key (the ordering and key
uniqueness that `std::map` guarantees by construction are carried as an
explicit well-formedness predicate).  Thrown C++ exceptions become the
`raised` constructor of `CoreResult`; a null-`unique_ptr` dereference of
the responder (undefined behaviour, not catchable) becomes the `crash`
constructor.  Side effects (log lines, transport sends, responder
replies, plugin callbacks) are recorded as an output trace.
-/

namespace Flipper

/-- Ordered-map insert, mirroring `std::map::operator[]` followed by
assignment: places the pair at its sorted position, replacing an
existing entry with the same key. -/
def mapInsert (k : String) (v : α) : List (String × α) → List (String × α)
  | [] => [(k, v)]
  | (k₁, v₁) :: rest =>
    if k = k₁ then (k, v) :: rest
    else if k < k₁ then (k, v) :: (k₁, v₁) :: rest
    else (k₁, v₁) :: mapInsert k v rest

/-- Ordered-map erase, mirroring `std::map::erase(key)`: removes the
first (on a well-formed map, the only) entry with the given key. -/
def mapErase (k : String) : List (String × α) → List (String × α)
  | [] => []
  | (k₁, v₁) :: rest => if k = k₁ then rest else (k₁, v₁) :: mapErase k rest

/-- Ordered-map lookup, mirroring `std::map::find` / `::at`. -/
def mapFind (k : String) : List (String × α) → Option α
  | [] => none
  | (k₁, v₁) :: rest => if k = k₁ then some v₁ else mapFind k rest

/-- A plugin as seen by the dispatcher (`FlipperPlugin` capability
interface): an identifier and the background-run flag.  Its callbacks
`didConnect`, `didDisconnect` and the connection-level `call` are
recorded as trace outputs. -/
structure Plugin where
  identifier : String
  runInBackground : Bool
deriving DecidableEq, Repr

/-- A connection handle (`FlipperConnectionImpl`): remembers the plugin
identifier it was created for, plus a creation serial number so that
distinct handle objects for the same identifier are distinguishable. -/
structure Connection where
  pluginId : String
  serial : Nat
deriving DecidableEq, Repr

/-- The mutable state of `FlipperClient`: `plugins_`, `connections_`,
`connected_`, and the counter supplying fresh connection serials. -/
structure ClientState where
  plugins : List (String × Plugin)
  connections : List (String × Connection)
  connected : Bool
  nextSerial : Nat
deriving DecidableEq, Repr

/-- Observable side effects of one entry-point invocation, in order. -/
inductive Output
  | log (line : String)
  | stepStart (desc : String)
  | stepComplete (desc : String)
  | sendRefreshPlugins
  | sendErrorReport (message : String) (stacktrace : String)
  | respondSuccess (id : Int) (plugins : List String)
  | respondError (id : Int) (message : String)
  | didConnect (pluginId : String) (conn : Connection)
  | didDisconnect (pluginId : String)
  | pluginCall (conn : Connection) (method : String) (params : Option String)
      (hasResponder : Bool)
deriving DecidableEq, Repr

/-- The exceptions the dispatcher can throw (all `std::out_of_range` /
`folly` lookup errors in the source), tagged by their taxonomy. -/
inductive FlipperError
  | duplicatePlugin (id : String)
  | pluginNotAdded (id : String)
  | pluginNotFound (id : String) (method : String)
  | connectionNotFound (id : String) (method : String)
  | missingKey (key : String)
deriving DecidableEq, Repr

/-- The `what()` string of the thrown exception. -/
def FlipperError.what : FlipperError → String
  | .duplicatePlugin id => "plugin " ++ id ++ " already added."
  | .pluginNotAdded id => "plugin " ++ id ++ " not added."
  | .pluginNotFound id m => "plugin " ++ id ++ " not found for method " ++ m
  | .connectionNotFound id m => "connection " ++ id ++ " not found for method " ++ m
  | .missingKey key => "couldn't find key " ++ key

/-- Result of running the body handed to `performAndReportError`:
either it returns normally, or it throws (state mutated so far plus the
outputs emitted before the throw are kept — C++ does not roll back), or
it hits undefined behaviour (null responder dereference), which no
catch block can intercept. -/
inductive CoreResult
  | ok (s : ClientState) (out : List Output)
  | raised (e : FlipperError) (s : ClientState) (out : List Output)
  | crash (s : ClientState) (out : List Output)
deriving DecidableEq, Repr

/-- What an entry-point invocation looks like from the outside:
the state afterwards, the emitted outputs, and whether the process
survived (crashed = false only for the undefined-behaviour path). -/
structure RunResult where
  state : ClientState
  out : List Output
  crashed : Bool
deriving DecidableEq, Repr

/-- `FlipperClient::performAndReportError`: runs the body; a thrown
`std::exception` is converted to a structured error message on the
transport when `connected_`, otherwise to a local log line.  Undefined
behaviour is not an exception and is not intercepted. -/
def performAndReportError : CoreResult → RunResult
  | .ok s out => ⟨s, out, false⟩
  | .raised e s out =>
    if s.connected then
      ⟨s, out ++ [.sendErrorReport e.what "<none>"], false⟩
    else
      ⟨s, out ++ [.log ("Error: " ++ e.what)], false⟩
  | .crash s out => ⟨s, out, true⟩

/-- `FlipperClient::disconnect` (private helper): if a connection entry
exists for the plugin's identifier, erase it and invoke
`didDisconnect`; otherwise do nothing. -/
def disconnectPlugin (s : ClientState) (pid : String) :
    ClientState × List Output :=
  match mapFind pid s.connections with
  | some _ =>
    ({ s with connections := mapErase pid s.connections }, [.didDisconnect pid])
  | none => (s, [])

/-- Body of `FlipperClient::addPlugin`: log, start a diagnostics step,
throw on a duplicate identifier, otherwise insert, complete the step,
and re-publish the plugin list if connected. -/
def addPluginCore (s : ClientState) (p : Plugin) : CoreResult :=
  let out₀ : List Output :=
    [.log ("FlipperClient::addPlugin " ++ p.identifier),
     .stepStart ("Add plugin " ++ p.identifier)]
  if (mapFind p.identifier s.plugins).isSome then
    .raised (.duplicatePlugin p.identifier) s out₀
  else
    let s₁ := { s with plugins := mapInsert p.identifier p s.plugins }
    let out₁ := out₀ ++ [.stepComplete ("Add plugin " ++ p.identifier)]
    if s₁.connected then .ok s₁ (out₁ ++ [.sendRefreshPlugins])
    else .ok s₁ out₁

/-- Body of `FlipperClient::removePlugin`: log, throw if the identifier
is not registered, otherwise force a disconnect, erase the registry
entry, and re-publish the plugin list if connected. -/
def removePluginCore (s : ClientState) (p : Plugin) : CoreResult :=
  let out₀ : List Output := [.log ("FlipperClient::removePlugin " ++ p.identifier)]
  if (mapFind p.identifier s.plugins).isSome then
    let s₁ := (disconnectPlugin s p.identifier).1
    let outD := (disconnectPlugin s p.identifier).2
    let s₂ := { s₁ with plugins := mapErase p.identifier s₁.plugins }
    if s₂.connected then .ok s₂ (out₀ ++ outD ++ [.sendRefreshPlugins])
    else .ok s₂ (out₀ ++ outD)
  else
    .raised (.pluginNotAdded p.identifier) s out₀

/-- Loop body of `FlipperClient::startBackgroundPlugins`: iterate the
plugin map in key order; for each background-capable plugin install a
freshly created connection handle at its key (replacing any existing
entry, as `connections_[key] = make_shared(...)` does) and invoke its
`didConnect`. -/
def startBackgroundPluginsAux :
    List (String × Plugin) → ClientState → ClientState × List Output
  | [], s => (s, [])
  | (k, p) :: rest, s =>
    if p.runInBackground then
      ((startBackgroundPluginsAux rest
          { s with
            connections := mapInsert k ⟨k, s.nextSerial⟩ s.connections,
            nextSerial := s.nextSerial + 1 }).1,
       .log k :: .didConnect p.identifier ⟨k, s.nextSerial⟩ ::
         (startBackgroundPluginsAux rest
           { s with
             connections := mapInsert k ⟨k, s.nextSerial⟩ s.connections,
             nextSerial := s.nextSerial + 1 }).2)
    else
      ((startBackgroundPluginsAux rest s).1,
       .log k :: (startBackgroundPluginsAux rest s).2)

/-- `FlipperClient::startBackgroundPlugins`. -/
def startBackgroundPlugins (s : ClientState) : ClientState × List Output :=
  ((startBackgroundPluginsAux s.plugins s).1,
   .log "Activating Background Plugins..." ::
     (startBackgroundPluginsAux s.plugins s).2)

/-- Body of `FlipperClient::onConnected`: set `connected_` and activate
the background plugins. -/
def onConnectedCore (s : ClientState) : CoreResult :=
  .ok (startBackgroundPlugins { s with connected := true }).1
    (.log "FlipperClient::onConnected" ::
      (startBackgroundPlugins { s with connected := true }).2)

/-- Loop body of `FlipperClient::onDisconnected`: disconnect every
plugin (by its own identifier), in registry iteration order. -/
def disconnectAllAux :
    List (String × Plugin) → ClientState → ClientState × List Output
  | [], s => (s, [])
  | (_, p) :: rest, s =>
    ((disconnectAllAux rest (disconnectPlugin s p.identifier).1).1,
     (disconnectPlugin s p.identifier).2 ++
       (disconnectAllAux rest (disconnectPlugin s p.identifier).1).2)

/-- Body of `FlipperClient::onDisconnected`: log, start a diagnostics
step, clear `connected_`, disconnect every plugin, complete the step. -/
def onDisconnectedCore (s : ClientState) : CoreResult :=
  .ok (disconnectAllAux s.plugins { s with connected := false }).1
    ([.log "FlipperClient::onDisconnected",
      .stepStart "Trigger onDisconnected callbacks"] ++
     (disconnectAllAux s.plugins { s with connected := false }).2 ++
     [.stepComplete "Trigger onDisconnected callbacks"])

/-- The `params` object of an inbound message: the fields the
dispatcher reads (`plugin`, `api`, `method`, nested `params`), each
possibly absent. -/
structure MsgParams where
  plugin : Option String
  api : Option String
  method : Option String
  params : Option String
deriving DecidableEq, Repr

/-- An inbound message: `method` (required by the code — reading it
throws when absent), optional integer `id`, optional `params`. -/
structure Message where
  method : Option String
  id : Option Int
  params : Option MsgParams
deriving DecidableEq, Repr

/-- Body of `FlipperClient::onMessageReceived`: resolve the method name
and dispatch.  A responder exists iff the message carries an `id`.
Dereferencing an absent responder (`getPlugins` and the unknown-method
reply do so unconditionally) is undefined behaviour, embedded as
`crash`. -/
def onMessageReceivedCore (s : ClientState) (msg : Message) : CoreResult :=
  match msg.method with
  | none => .raised (.missingKey "method") s []
  | some method =>
    if method = "getPlugins" then
      match msg.id with
      | none => .crash s []
      | some n => .ok s [.respondSuccess n (s.plugins.map Prod.fst)]
    else if method = "init" then
      match msg.params.bind MsgParams.plugin with
      | none => .raised (.missingKey "plugin") s []
      | some identifier =>
        match mapFind identifier s.plugins with
        | none => .raised (.pluginNotFound identifier "init") s []
        | some plugin =>
          if plugin.runInBackground then .ok s []
          else
            let conn : Connection := ⟨plugin.identifier, s.nextSerial⟩
            let s₁ := { s with
              connections := mapInsert plugin.identifier conn s.connections,
              nextSerial := s.nextSerial + 1 }
            .ok s₁ [.didConnect plugin.identifier conn]
    else if method = "deinit" then
      match msg.params.bind MsgParams.plugin with
      | none => .raised (.missingKey "plugin") s []
      | some identifier =>
        match mapFind identifier s.plugins with
        | none => .raised (.pluginNotFound identifier "deinit") s []
        | some plugin =>
          if plugin.runInBackground then .ok s []
          else
            let (s₁, out) := disconnectPlugin s plugin.identifier
            .ok s₁ out
    else if method = "execute" then
      match msg.params.bind MsgParams.api with
      | none => .raised (.missingKey "api") s []
      | some identifier =>
        match mapFind identifier s.connections with
        | none => .raised (.connectionNotFound identifier "execute") s []
        | some conn =>
          match msg.params.bind MsgParams.method with
          | none => .raised (.missingKey "method") s []
          | some m =>
            .ok s [.pluginCall conn m (msg.params.bind MsgParams.params)
                     msg.id.isSome]
    else
      match msg.id with
      | none => .crash s []
      | some n =>
        .ok s [.respondError n ("Received unknown method: " ++ method)]

/-- The five externally triggered dispatcher entry points. -/
inductive Op
  | addPlugin (p : Plugin)
  | removePlugin (p : Plugin)
  | onConnected
  | onDisconnected
  | onMessageReceived (msg : Message)
deriving DecidableEq, Repr

/-- The body of each entry point, before error containment. -/
def coreOp (s : ClientState) : Op → CoreResult
  | .addPlugin p => addPluginCore s p
  | .removePlugin p => removePluginCore s p
  | .onConnected => onConnectedCore s
  | .onDisconnected => onDisconnectedCore s
  | .onMessageReceived msg => onMessageReceivedCore s msg

/-- An entry point as the caller sees it: the body wrapped in
`performAndReportError`. -/
def applyOp (s : ClientState) (op : Op) : RunResult :=
  performAndReportError (coreOp s op)

/-- The state a core result carries (after-state for normal returns,
the mutated-so-far state for throws and crashes). -/
def CoreResult.stateOf : CoreResult → ClientState
  | .ok s _ => s
  | .raised _ s _ => s
  | .crash s _ => s

/-- `FlipperClient::getPlugin`: read-only lookup, absent → null. -/
def getPlugin (s : ClientState) (identifier : String) : Option Plugin :=
  mapFind identifier s.plugins

/-- `FlipperClient::hasPlugin`: read-only membership test. -/
def hasPlugin (s : ClientState) (identifier : String) : Bool :=
  (mapFind identifier s.plugins).isSome

/-- Keys of an association list. -/
def keysOf (l : List (String × α)) : List String := l.map Prod.fst

/-- Well-formedness of the client state, exactly what `std::map` and
the registration discipline guarantee by construction: both maps have
strictly increasing (hence duplicate-free) keys, every plugin is stored
under its own identifier, and every connection entry's key names a
registered plugin. -/
def WellFormed (s : ClientState) : Prop :=
  (keysOf s.plugins).Pairwise (· < ·) ∧
  (keysOf s.connections).Pairwise (· < ·) ∧
  (∀ kp ∈ s.plugins, kp.2.identifier = kp.1) ∧
  (∀ kc ∈ s.connections, (mapFind kc.1 s.plugins).isSome)

instance (s : ClientState) : Decidable (WellFormed s) := by
  unfold WellFormed; infer_instance

/-- Does this output invoke a plugin callback (`didConnect`,
`didDisconnect`, or a connection-mediated `call` into the plugin)? -/
def Output.isPluginCallback : Output → Bool
  | .didConnect _ _ => true
  | .didDisconnect _ => true
  | .pluginCall _ _ _ _ => true
  | _ => false

/-- Does this output invoke `didConnect` on the plugin named `pid`? -/
def Output.isDidConnectFor (pid : String) : Output → Bool
  | .didConnect q _ => q = pid
  | _ => false

/-- Does this output invoke `didDisconnect` on the plugin named `pid`? -/
def Output.isDidDisconnectFor (pid : String) : Output → Bool
  | .didDisconnect q => q = pid
  | _ => false

/-! ## Concrete fixtures used by the witnesses -/

/-- A foreground plugin named "a". -/
def pluginA : Plugin := ⟨"a", false⟩

/-- A foreground plugin named "b". -/
def pluginB : Plugin := ⟨"b", false⟩

/-- A background-capable plugin named "bg". -/
def pluginBg : Plugin := ⟨"bg", true⟩

/-- Disconnected state with only plugin "a" registered. -/
def stateA : ClientState := ⟨[("a", pluginA)], [], false, 0⟩

/-- Connected state with plugins "a" and "b" registered, no connections. -/
def stateAB : ClientState := ⟨[("a", pluginA), ("b", pluginB)], [], true, 0⟩

/-- Connected state with plugin "a" registered and an active connection
for it (serial 0). -/
def stateConnA : ClientState :=
  ⟨[("a", pluginA)], [("a", ⟨"a", 0⟩)], true, 1⟩

/-- Connected state with background plugin "bg" and foreground plugin
"a" registered, no connections. -/
def stateBg : ClientState := ⟨[("a", pluginA), ("bg", pluginBg)], [], true, 0⟩

/-- Disconnected state with only the background plugin "bg" registered. -/
def stateOnlyBg : ClientState := ⟨[("bg", pluginBg)], [], false, 0⟩

/-! ## Association-list lemmas -/

theorem keysOf_nil : keysOf ([] : List (String × α)) = [] := rfl

theorem keysOf_cons (k : String) (v : α) (l : List (String × α)) :
    keysOf ((k, v) :: l) = k :: keysOf l := rfl

theorem mapFind_eq_none_of_not_mem {k : String} {l : List (String × α)}
    (h : k ∉ keysOf l) : mapFind k l = none := by
  induction l with
  | nil => rfl
  | cons hd tl ih =>
    obtain ⟨k₁, v₁⟩ := hd
    rw [keysOf_cons] at h
    simp only [List.mem_cons, not_or] at h
    simp [mapFind, h.1, ih h.2]

theorem mem_keysOf_of_mapFind_isSome {k : String} {l : List (String × α)}
    (h : (mapFind k l).isSome) : k ∈ keysOf l := by
  induction l with
  | nil => simp [mapFind] at h
  | cons hd tl ih =>
    obtain ⟨k₁, v₁⟩ := hd
    rw [keysOf_cons]
    by_cases hk : k = k₁
    · simp [hk]
    · simp only [mapFind, hk, if_false] at h
      exact List.mem_cons_of_mem _ (ih h)

theorem mapFind_isSome_of_mem {k : String} {v : α} {l : List (String × α)}
    (h : (k, v) ∈ l) : (mapFind k l).isSome := by
  induction l with
  | nil => simp at h
  | cons hd tl ih =>
    obtain ⟨k₁, v₁⟩ := hd
    by_cases hk : k = k₁
    · simp [mapFind, hk]
    · simp only [mapFind, hk, if_false]
      rcases List.mem_cons.mp h with h₁ | h₂
      · exact absurd (congrArg Prod.fst h₁) hk
      · exact ih h₂

theorem mapFind_eq_some_mem {k : String} {v : α} {l : List (String × α)}
    (h : mapFind k l = some v) : (k, v) ∈ l := by
  induction l with
  | nil => simp [mapFind] at h
  | cons hd tl ih =>
    obtain ⟨k₁, v₁⟩ := hd
    by_cases hk : k = k₁
    · simp only [mapFind, if_pos hk] at h
      injection h with h₁
      rw [hk, ← h₁]
      exact List.mem_cons_self _ _
    · simp only [mapFind, hk, if_false] at h
      exact List.mem_cons_of_mem _ (ih h)

theorem mapFind_mapInsert_self (k : String) (v : α) (l : List (String × α)) :
    mapFind k (mapInsert k v l) = some v := by
  induction l with
  | nil => simp [mapInsert, mapFind]
  | cons hd tl ih =>
    obtain ⟨k₁, v₁⟩ := hd
    by_cases h₂ : k = k₁
    · simp [mapInsert, h₂, mapFind]
    · by_cases h₁ : k < k₁
      · simp [mapInsert, h₁, h₂, mapFind]
      · simp [mapInsert, h₁, h₂, mapFind, ih]

theorem mapFind_mapInsert_ne {k' k : String} (v : α) (l : List (String × α))
    (h : k' ≠ k) : mapFind k' (mapInsert k v l) = mapFind k' l := by
  induction l with
  | nil => simp [mapInsert, mapFind, h]
  | cons hd tl ih =>
    obtain ⟨k₁, v₁⟩ := hd
    by_cases h₂ : k = k₁
    · subst h₂; simp [mapInsert, mapFind, h]
    · by_cases h₁ : k < k₁
      · simp [mapInsert, h₁, h₂, mapFind, h]
      · simp only [mapInsert, h₂, if_false, h₁, if_false]
        by_cases h₃ : k' = k₁
        · simp [mapFind, h₃]
        · simp [mapFind, h₃, ih]

theorem mapFind_mapErase_ne {k' k : String} {l : List (String × α)}
    (h : k' ≠ k) : mapFind k' (mapErase k l) = mapFind k' l := by
  induction l with
  | nil => rfl
  | cons hd tl ih =>
    obtain ⟨k₁, v₁⟩ := hd
    by_cases h₁ : k = k₁
    · subst h₁; simp [mapErase, mapFind, h]
    · by_cases h₂ : k' = k₁
      · simp [mapErase, h₁, mapFind, h₂]
      · simp [mapErase, h₁, mapFind, h₂, ih]

theorem mapFind_mapErase_self (k : String) {l : List (String × α)}
    (h : (keysOf l).Nodup) : mapFind k (mapErase k l) = none := by
  induction l with
  | nil => rfl
  | cons hd tl ih =>
    obtain ⟨k₁, v₁⟩ := hd
    rw [keysOf_cons, List.nodup_cons] at h
    by_cases h₁ : k = k₁
    · subst h₁
      simp only [mapErase, if_true]
      exact mapFind_eq_none_of_not_mem h.1
    · simp [mapErase, h₁, mapFind, ih h.2]

theorem mem_mapInsert {x : String × α} {k : String} {v : α}
    {l : List (String × α)} (h : x ∈ mapInsert k v l) :
    x = (k, v) ∨ x ∈ l := by
  induction l with
  | nil => simpa [mapInsert] using h
  | cons hd tl ih =>
    obtain ⟨k₁, v₁⟩ := hd
    by_cases h₂ : k = k₁
    · subst h₂
      have he : mapInsert k v ((k, v₁) :: tl) = (k, v) :: tl := by
        simp [mapInsert]
      rw [he] at h
      rcases List.mem_cons.mp h with h₃ | h₃
      · exact Or.inl h₃
      · exact Or.inr (List.mem_cons_of_mem _ h₃)
    · by_cases h₁ : k < k₁
      · have he : mapInsert k v ((k₁, v₁) :: tl) = (k, v) :: (k₁, v₁) :: tl := by
          simp [mapInsert, h₁, h₂]
        rw [he] at h
        rcases List.mem_cons.mp h with h₃ | h₃
        · exact Or.inl h₃
        · exact Or.inr h₃
      · have he : mapInsert k v ((k₁, v₁) :: tl) = (k₁, v₁) :: mapInsert k v tl := by
          simp [mapInsert, h₁, h₂]
        rw [he] at h
        rcases List.mem_cons.mp h with h₃ | h₃
        · exact Or.inr (List.mem_cons.mpr (Or.inl h₃))
        · rcases ih h₃ with h₄ | h₄
          · exact Or.inl h₄
          · exact Or.inr (List.mem_cons_of_mem _ h₄)

theorem mapErase_sublist (k : String) (l : List (String × α)) :
    (mapErase k l).Sublist l := by
  induction l with
  | nil => simp [mapErase]
  | cons hd tl ih =>
    obtain ⟨k₁, v₁⟩ := hd
    by_cases h₁ : k = k₁
    · rw [mapErase, if_pos h₁]
      exact List.sublist_cons_self _ _
    · rw [mapErase, if_neg h₁]
      exact List.Sublist.cons₂ _ ih

theorem mem_mapErase {x : String × α} {k : String} {l : List (String × α)}
    (h : x ∈ mapErase k l) : x ∈ l :=
  (mapErase_sublist k l).mem h

theorem mem_mapErase_key_ne {x : String × α} {k : String}
    {l : List (String × α)} (hn : (keysOf l).Nodup)
    (h : x ∈ mapErase k l) : x.1 ≠ k := by
  induction l with
  | nil => simp [mapErase] at h
  | cons hd tl ih =>
    obtain ⟨k₁, v₁⟩ := hd
    rw [keysOf_cons, List.nodup_cons] at hn
    by_cases h₁ : k = k₁
    · subst h₁
      simp only [mapErase, if_true] at h
      intro hx
      exact hn.1 (hx ▸ List.mem_map_of_mem Prod.fst h)
    · rcases List.mem_cons.mp (by simpa [mapErase, h₁] using h) with h₂ | h₂
      · rw [h₂]; exact fun hx => h₁ hx.symm
      · exact ih hn.2 h₂

theorem mem_keysOf_mapInsert {x k : String} {v : α} {l : List (String × α)}
    (h : x ∈ keysOf (mapInsert k v l)) : x = k ∨ x ∈ keysOf l := by
  rcases List.mem_map.mp h with ⟨⟨k₂, v₂⟩, hmem, hx⟩
  rcases mem_mapInsert hmem with h₁ | h₁
  · left; rw [← hx, h₁]
  · right; rw [← hx]; exact List.mem_map_of_mem Prod.fst h₁

theorem pairwise_keysOf_mapInsert {k : String} {v : α} {l : List (String × α)}
    (h : (keysOf l).Pairwise (· < ·)) :
    (keysOf (mapInsert k v l)).Pairwise (· < ·) := by
  induction l with
  | nil => simp [mapInsert, keysOf]
  | cons hd tl ih =>
    obtain ⟨k₁, v₁⟩ := hd
    rw [keysOf_cons, List.pairwise_cons] at h
    by_cases h₂ : k = k₁
    · subst h₂
      have he : mapInsert k v ((k, v₁) :: tl) = (k, v) :: tl := by
        simp [mapInsert]
      rw [he, keysOf_cons, List.pairwise_cons]
      exact h
    · by_cases h₁ : k < k₁
      · have he : mapInsert k v ((k₁, v₁) :: tl) = (k, v) :: (k₁, v₁) :: tl := by
          simp [mapInsert, h₁, h₂]
        rw [he, keysOf_cons, keysOf_cons, List.pairwise_cons, List.pairwise_cons]
        refine ⟨?_, h.1, h.2⟩
        intro x hx
        rcases List.mem_cons.mp hx with h₃ | h₃
        · rw [h₃]; exact h₁
        · exact lt_trans h₁ (h.1 x h₃)
      · have h₃ : k₁ < k := lt_of_le_of_ne (le_of_not_lt h₁) fun he => h₂ he.symm
        have he : mapInsert k v ((k₁, v₁) :: tl) = (k₁, v₁) :: mapInsert k v tl := by
          simp [mapInsert, h₁, h₂]
        rw [he, keysOf_cons, List.pairwise_cons]
        refine ⟨fun x hx => ?_, ih h.2⟩
        rcases mem_keysOf_mapInsert hx with h₄ | h₄
        · rw [h₄]; exact h₃
        · exact h.1 x h₄

theorem pairwise_keysOf_mapErase {k : String} {l : List (String × α)}
    (h : (keysOf l).Pairwise (· < ·)) :
    (keysOf (mapErase k l)).Pairwise (· < ·) :=
  h.sublist ((mapErase_sublist k l).map Prod.fst)

theorem nodup_keysOf_of_pairwise {l : List (String × α)}
    (h : (keysOf l).Pairwise (· < ·)) : (keysOf l).Nodup :=
  h.imp ne_of_lt

/-! ## Evaluation lemmas for `onMessageReceivedCore`, one per method -/

theorem core_getPlugins (s : ClientState) (i : Option Int) (pr : Option MsgParams) :
    onMessageReceivedCore s ⟨some "getPlugins", i, pr⟩ =
      match i with
      | none => .crash s []
      | some n => .ok s [.respondSuccess n (s.plugins.map Prod.fst)] := by
  rfl

theorem core_execute (s : ClientState) (i : Option Int) (pr : Option MsgParams) :
    onMessageReceivedCore s ⟨some "execute", i, pr⟩ =
      match pr.bind MsgParams.api with
      | none => .raised (.missingKey "api") s []
      | some identifier =>
        match mapFind identifier s.connections with
        | none => .raised (.connectionNotFound identifier "execute") s []
        | some conn =>
          match pr.bind MsgParams.method with
          | none => .raised (.missingKey "method") s []
          | some m =>
            .ok s [.pluginCall conn m (pr.bind MsgParams.params) i.isSome] := by
  rfl

theorem core_init (s : ClientState) (i : Option Int) (pr : Option MsgParams) :
    onMessageReceivedCore s ⟨some "init", i, pr⟩ =
      match pr.bind MsgParams.plugin with
      | none => .raised (.missingKey "plugin") s []
      | some identifier =>
        match mapFind identifier s.plugins with
        | none => .raised (.pluginNotFound identifier "init") s []
        | some plugin =>
          if plugin.runInBackground then .ok s []
          else
            .ok { s with
                  connections := mapInsert plugin.identifier
                    ⟨plugin.identifier, s.nextSerial⟩ s.connections,
                  nextSerial := s.nextSerial + 1 }
              [.didConnect plugin.identifier ⟨plugin.identifier, s.nextSerial⟩] := by
  rfl

theorem core_deinit (s : ClientState) (i : Option Int) (pr : Option MsgParams) :
    onMessageReceivedCore s ⟨some "deinit", i, pr⟩ =
      match pr.bind MsgParams.plugin with
      | none => .raised (.missingKey "plugin") s []
      | some identifier =>
        match mapFind identifier s.plugins with
        | none => .raised (.pluginNotFound identifier "deinit") s []
        | some plugin =>
          if plugin.runInBackground then .ok s []
          else
            .ok (disconnectPlugin s plugin.identifier).1
              (disconnectPlugin s plugin.identifier).2 := by
  rfl

theorem core_unknown (s : ClientState) (m : String) (i : Option Int)
    (pr : Option MsgParams) (h1 : m ≠ "getPlugins") (h2 : m ≠ "init")
    (h3 : m ≠ "deinit") (h4 : m ≠ "execute") :
    onMessageReceivedCore s ⟨some m, i, pr⟩ =
      match i with
      | none => .crash s []
      | some n => .ok s [.respondError n ("Received unknown method: " ++ m)] := by
  unfold onMessageReceivedCore
  simp only [if_neg h1, if_neg h2, if_neg h3, if_neg h4]

/-! ## Helper lemmas about `disconnectPlugin` -/

theorem disconnectPlugin_plugins (s : ClientState) (pid : String) :
    (disconnectPlugin s pid).1.plugins = s.plugins := by
  cases h : mapFind pid s.connections <;> simp [disconnectPlugin, h]

theorem disconnectPlugin_connected (s : ClientState) (pid : String) :
    (disconnectPlugin s pid).1.connected = s.connected := by
  cases h : mapFind pid s.connections <;> simp [disconnectPlugin, h]

theorem disconnectPlugin_nextSerial (s : ClientState) (pid : String) :
    (disconnectPlugin s pid).1.nextSerial = s.nextSerial := by
  cases h : mapFind pid s.connections <;> simp [disconnectPlugin, h]

theorem disconnectPlugin_none_eq (s : ClientState) (pid : String)
    (h : mapFind pid s.connections = none) :
    disconnectPlugin s pid = (s, []) := by
  simp [disconnectPlugin, h]

theorem disconnectPlugin_find_none (s : ClientState) (pid : String)
    (hnodup : (keysOf s.connections).Nodup) :
    mapFind pid (disconnectPlugin s pid).1.connections = none := by
  cases h : mapFind pid s.connections with
  | none => simp [disconnectPlugin, h]
  | some c => simp [disconnectPlugin, h, mapFind_mapErase_self pid hnodup]

/-! ## Generic wrapper lemmas -/

theorem applyOp_state (s : ClientState) (op : Op) :
    (applyOp s op).state = (coreOp s op).stateOf := by
  unfold applyOp
  cases h : coreOp s op with
  | ok s' out => rfl
  | raised e s' out =>
    by_cases hc : s'.connected = true <;>
      simp [performAndReportError, CoreResult.stateOf, hc]
  | crash s' out => rfl

theorem mapFind_mapInsert_isSome_mono {k₀ k : String} {v : α}
    {l : List (String × α)} (h : (mapFind k₀ l).isSome) :
    (mapFind k₀ (mapInsert k v l)).isSome := by
  by_cases hk : k₀ = k
  · subst hk; rw [mapFind_mapInsert_self]; rfl
  · rw [mapFind_mapInsert_ne _ _ hk]; exact h

theorem mapFind_isSome_of_mem_pair {kp : String × α} {l : List (String × α)}
    (h : kp ∈ l) : (mapFind kp.1 l).isSome :=
  mapFind_isSome_of_mem (show (kp.1, kp.2) ∈ l from by
    rw [Prod.mk.eta]; exact h)

theorem mapFind_mapErase_none {k q : String} {l : List (String × α)}
    (h : mapFind k l = none) : mapFind k (mapErase q l) = none := by
  apply mapFind_eq_none_of_not_mem
  intro hmem
  rcases List.mem_map.mp hmem with ⟨kv, hkv, hfst⟩
  have : (mapFind k l).isSome :=
    hfst ▸ mapFind_isSome_of_mem_pair (mem_mapErase hkv)
  rw [h] at this
  exact Bool.false_ne_true this

/-! ## Lemmas about `startBackgroundPluginsAux` -/

theorem sbpAux_plugins (l : List (String × Plugin)) :
    ∀ s : ClientState, (startBackgroundPluginsAux l s).1.plugins = s.plugins := by
  induction l with
  | nil => intro s; rfl
  | cons hd tl ih =>
    intro s
    obtain ⟨k, p⟩ := hd
    by_cases hbg : p.runInBackground = true
    · simp only [startBackgroundPluginsAux]
      rw [if_pos hbg, ih]
    · simp only [startBackgroundPluginsAux]
      rw [if_neg hbg, ih]

theorem sbpAux_connected (l : List (String × Plugin)) :
    ∀ s : ClientState,
      (startBackgroundPluginsAux l s).1.connected = s.connected := by
  induction l with
  | nil => intro s; rfl
  | cons hd tl ih =>
    intro s
    obtain ⟨k, p⟩ := hd
    by_cases hbg : p.runInBackground = true
    · simp only [startBackgroundPluginsAux]
      rw [if_pos hbg, ih]
    · simp only [startBackgroundPluginsAux]
      rw [if_neg hbg, ih]

theorem sbpAux_find_mono (k₀ : String) (l : List (String × Plugin)) :
    ∀ s : ClientState, (mapFind k₀ s.connections).isSome →
      (mapFind k₀ (startBackgroundPluginsAux l s).1.connections).isSome := by
  induction l with
  | nil => intro s h; exact h
  | cons hd tl ih =>
    intro s h
    obtain ⟨k, p⟩ := hd
    by_cases hbg : p.runInBackground = true
    · simp only [startBackgroundPluginsAux]
      rw [if_pos hbg]
      apply ih
      show (mapFind k₀ (mapInsert k ⟨k, s.nextSerial⟩ s.connections)).isSome
      exact mapFind_mapInsert_isSome_mono h
    · simp only [startBackgroundPluginsAux]
      rw [if_neg hbg]
      exact ih s h

theorem sbpAux_find_isSome_of_mem {k : String} {p : Plugin}
    (hbg : p.runInBackground = true) (l : List (String × Plugin)) :
    ∀ s : ClientState, (k, p) ∈ l →
      (mapFind k (startBackgroundPluginsAux l s).1.connections).isSome := by
  induction l with
  | nil => intro s hmem; simp at hmem
  | cons hd tl ih =>
    intro s hmem
    obtain ⟨k₁, p₁⟩ := hd
    rcases List.mem_cons.mp hmem with he | hm
    · cases he
      simp only [startBackgroundPluginsAux]
      rw [if_pos hbg]
      apply sbpAux_find_mono
      show (mapFind k (mapInsert k ⟨k, s.nextSerial⟩ s.connections)).isSome
      rw [mapFind_mapInsert_self]
      rfl
    · by_cases hbg₁ : p₁.runInBackground = true
      · simp only [startBackgroundPluginsAux]
        rw [if_pos hbg₁]
        exact ih _ hm
      · simp only [startBackgroundPluginsAux]
        rw [if_neg hbg₁]
        exact ih _ hm

theorem sbpAux_countP (pid : String) (l : List (String × Plugin)) :
    ∀ s : ClientState,
      (startBackgroundPluginsAux l s).2.countP
          (fun o => o.isDidConnectFor pid) =
        l.countP
          (fun kp => kp.2.runInBackground && decide (kp.2.identifier = pid)) := by
  induction l with
  | nil => intro s; rfl
  | cons hd tl ih =>
    intro s
    obtain ⟨k, p⟩ := hd
    by_cases hbg : p.runInBackground = true
    · simp only [startBackgroundPluginsAux]
      rw [if_pos hbg]
      simp only [List.countP_cons, ih]
      simp [Output.isDidConnectFor, hbg]
    · simp only [startBackgroundPluginsAux]
      rw [if_neg hbg]
      simp only [List.countP_cons, ih]
      have hbg' : p.runInBackground = false := Bool.not_eq_true _ |>.mp hbg
      simp [Output.isDidConnectFor, hbg']

theorem sbpAux_conn_wf (P : List (String × Plugin))
    (l : List (String × Plugin)) :
    ∀ s : ClientState, (∀ kp ∈ l, (mapFind kp.1 P).isSome) →
      (keysOf s.connections).Pairwise (· < ·) →
      (∀ kc ∈ s.connections, (mapFind kc.1 P).isSome) →
      (keysOf (startBackgroundPluginsAux l s).1.connections).Pairwise (· < ·) ∧
      (∀ kc ∈ (startBackgroundPluginsAux l s).1.connections,
        (mapFind kc.1 P).isSome) := by
  induction l with
  | nil => intro s _ hp hs; exact ⟨hp, hs⟩
  | cons hd tl ih =>
    intro s hl hp hs
    obtain ⟨k, p⟩ := hd
    have hk : (mapFind k P).isSome := hl (k, p) (List.mem_cons_self _ _)
    by_cases hbg : p.runInBackground = true
    · simp only [startBackgroundPluginsAux]
      rw [if_pos hbg]
      apply ih _ (fun kp hkp => hl kp (List.mem_cons_of_mem _ hkp))
      · exact pairwise_keysOf_mapInsert hp
      · intro kc hkc
        rcases mem_mapInsert hkc with he | hold
        · rw [he]; exact hk
        · exact hs kc hold
    · simp only [startBackgroundPluginsAux]
      rw [if_neg hbg]
      exact ih s (fun kp hkp => hl kp (List.mem_cons_of_mem _ hkp)) hp hs

theorem countP_background_eq_one {pid : String} {p : Plugin}
    (hbg : p.runInBackground = true) (l : List (String × Plugin)) :
    (keysOf l).Nodup → (∀ kp ∈ l, kp.2.identifier = kp.1) → (pid, p) ∈ l →
    l.countP
      (fun kp => kp.2.runInBackground && decide (kp.2.identifier = pid)) = 1 := by
  induction l with
  | nil => intro _ _ hmem; simp at hmem
  | cons hd tl ih =>
    intro hnd hcoh hmem
    obtain ⟨k₁, p₁⟩ := hd
    rw [keysOf_cons, List.nodup_cons] at hnd
    have hid₁ : p₁.identifier = k₁ := hcoh _ (List.mem_cons_self _ _)
    by_cases hk : k₁ = pid
    · subst hk
      have hpp : p₁ = p := by
        rcases List.mem_cons.mp hmem with he | hm
        · cases he; rfl
        · exact absurd (List.mem_map_of_mem Prod.fst hm) hnd.1
      subst hpp
      rw [List.countP_cons]
      have hzero : tl.countP
          (fun kp => kp.2.runInBackground && decide (kp.2.identifier = k₁)) = 0 := by
        rw [List.countP_eq_zero]
        intro kp hkp
        have hidk : kp.2.identifier = kp.1 :=
          hcoh kp (List.mem_cons_of_mem _ hkp)
        have hne : kp.1 ≠ k₁ := by
          intro he
          exact hnd.1 (he ▸ List.mem_map_of_mem Prod.fst hkp)
        simp [hidk, hne]
      simp [hzero, hbg, hid₁]
    · have hm : (pid, p) ∈ tl := by
        rcases List.mem_cons.mp hmem with he | hm
        · cases he; exact absurd rfl hk
        · exact hm
      rw [List.countP_cons]
      have hhead : (p₁.runInBackground && decide (p₁.identifier = pid)) = false := by
        simp [hid₁, hk]
      rw [ih hnd.2 (fun kp hkp => hcoh kp (List.mem_cons_of_mem _ hkp)) hm]
      simp [hhead]

/-! ## Lemmas about `disconnectAllAux` -/

theorem disconnectPlugin_conn_sublist (s : ClientState) (pid : String) :
    ((disconnectPlugin s pid).1.connections).Sublist s.connections := by
  cases hf : mapFind pid s.connections with
  | none => simp [disconnectPlugin, hf]
  | some c => simpa [disconnectPlugin, hf] using mapErase_sublist pid s.connections

theorem disconnectPlugin_find_other {pid q : String} (s : ClientState)
    (h : pid ≠ q) :
    mapFind pid (disconnectPlugin s q).1.connections =
      mapFind pid s.connections := by
  cases hf : mapFind q s.connections with
  | none => simp [disconnectPlugin, hf]
  | some c => simp [disconnectPlugin, hf, mapFind_mapErase_ne h]

theorem discAux_plugins (l : List (String × Plugin)) :
    ∀ s : ClientState, (disconnectAllAux l s).1.plugins = s.plugins := by
  induction l with
  | nil => intro s; rfl
  | cons hd tl ih =>
    intro s
    obtain ⟨k, p⟩ := hd
    simp only [disconnectAllAux]
    rw [ih, disconnectPlugin_plugins]

theorem discAux_connected (l : List (String × Plugin)) :
    ∀ s : ClientState, (disconnectAllAux l s).1.connected = s.connected := by
  induction l with
  | nil => intro s; rfl
  | cons hd tl ih =>
    intro s
    obtain ⟨k, p⟩ := hd
    simp only [disconnectAllAux]
    rw [ih, disconnectPlugin_connected]

theorem discAux_conn_sublist (l : List (String × Plugin)) :
    ∀ s : ClientState,
      ((disconnectAllAux l s).1.connections).Sublist s.connections := by
  induction l with
  | nil => intro s; exact List.Sublist.refl _
  | cons hd tl ih =>
    intro s
    obtain ⟨k, p⟩ := hd
    simp only [disconnectAllAux]
    exact (ih _).trans (disconnectPlugin_conn_sublist s p.identifier)

theorem discAux_none (pid : String) (l : List (String × Plugin)) :
    ∀ s : ClientState, mapFind pid s.connections = none →
      mapFind pid (disconnectAllAux l s).1.connections = none ∧
      (disconnectAllAux l s).2.countP (fun o => o.isDidDisconnectFor pid) = 0 := by
  induction l with
  | nil => intro s h; exact ⟨h, rfl⟩
  | cons hd tl ih =>
    intro s h
    obtain ⟨k₁, p₁⟩ := hd
    simp only [disconnectAllAux]
    by_cases hq : p₁.identifier = pid
    · have hdp : disconnectPlugin s p₁.identifier = (s, []) := by
        rw [hq]; exact disconnectPlugin_none_eq s pid h
      rw [hdp]
      constructor
      · exact (ih s h).1
      · show (([] : List Output) ++ (disconnectAllAux tl s).2).countP
          (fun o => o.isDidDisconnectFor pid) = 0
        rw [List.nil_append]
        exact (ih s h).2
    · have hfind' : mapFind pid (disconnectPlugin s p₁.identifier).1.connections =
          none := by
        rw [disconnectPlugin_find_other s (fun he => hq he.symm)]
        exact h
      have hih := ih _ hfind'
      constructor
      · exact hih.1
      · rw [List.countP_append, hih.2]
        have hcount : (disconnectPlugin s p₁.identifier).2.countP
            (fun o => o.isDidDisconnectFor pid) = 0 := by
          cases hf : mapFind p₁.identifier s.connections with
          | none => simp [disconnectPlugin, hf]
          | some c => simp [disconnectPlugin, hf, Output.isDidDisconnectFor, hq]
        rw [hcount]

theorem discAux_main {pid : String} {p : Plugin} (l : List (String × Plugin)) :
    ∀ s : ClientState, (keysOf l).Nodup →
      (∀ kp ∈ l, kp.2.identifier = kp.1) → (pid, p) ∈ l →
      (keysOf s.connections).Nodup → (mapFind pid s.connections).isSome →
      mapFind pid (disconnectAllAux l s).1.connections = none ∧
      (disconnectAllAux l s).2.countP (fun o => o.isDidDisconnectFor pid) = 1 := by
  induction l with
  | nil => intro s _ _ hmem; simp at hmem
  | cons hd tl ih =>
    intro s hnd hcoh hmem hcn hsome
    obtain ⟨k₁, p₁⟩ := hd
    rw [keysOf_cons, List.nodup_cons] at hnd
    have hid₁ : p₁.identifier = k₁ := hcoh _ (List.mem_cons_self _ _)
    simp only [disconnectAllAux]
    rcases List.mem_cons.mp hmem with he | hm
    · cases he
      obtain ⟨c, hc⟩ := Option.isSome_iff_exists.mp hsome
      have hdp : disconnectPlugin s p.identifier =
          ({ s with connections := mapErase pid s.connections },
           [.didDisconnect pid]) := by
        rw [hid₁]
        simp [disconnectPlugin, hc]
      rw [hdp]
      have hnone : mapFind pid
          ({ s with connections := mapErase pid s.connections } :
            ClientState).connections = none :=
        mapFind_mapErase_self pid hcn
      have hrest := discAux_none pid tl _ hnone
      constructor
      · exact hrest.1
      · show ([Output.didDisconnect pid] ++
            (disconnectAllAux tl
              { s with connections := mapErase pid s.connections }).2).countP
          (fun o => o.isDidDisconnectFor pid) = 1
        rw [List.countP_append, hrest.2]
        simp [Output.isDidDisconnectFor]
    · have hk₁ : k₁ ≠ pid := fun he' =>
        hnd.1 (he' ▸ List.mem_map_of_mem Prod.fst hm)
      have hfind' : mapFind pid (disconnectPlugin s p₁.identifier).1.connections =
          mapFind pid s.connections := by
        rw [hid₁]
        exact disconnectPlugin_find_other s (fun he' => hk₁ he'.symm)
      have hnd' : (keysOf (disconnectPlugin s p₁.identifier).1.connections).Nodup :=
        hcn.sublist ((disconnectPlugin_conn_sublist s p₁.identifier).map Prod.fst)
      have hih := ih _ hnd.2 (fun kp hkp => hcoh kp (List.mem_cons_of_mem _ hkp))
        hm hnd' (by rw [hfind']; exact hsome)
      constructor
      · exact hih.1
      · rw [List.countP_append, hih.2]
        have hcount : (disconnectPlugin s p₁.identifier).2.countP
            (fun o => o.isDidDisconnectFor pid) = 0 := by
          cases hf : mapFind p₁.identifier s.connections with
          | none => simp [disconnectPlugin, hf]
          | some c =>
            rw [hid₁] at hf
            simp [disconnectPlugin, hid₁, hf, Output.isDidDisconnectFor, hk₁]
        rw [hcount]

/-! ## Well-formedness preservation helpers -/

theorem wf_insert_plugin {s : ClientState} (p : Plugin) (hwf : WellFormed s) :
    WellFormed { s with plugins := mapInsert p.identifier p s.plugins } := by
  obtain ⟨hpw, hcw, hcoh, hcp⟩ := hwf
  refine ⟨pairwise_keysOf_mapInsert hpw, hcw, ?_, ?_⟩
  · intro kp hkp
    rcases mem_mapInsert hkp with he | hold
    · rw [he]
    · exact hcoh kp hold
  · intro kc hkc
    exact mapFind_mapInsert_isSome_mono (hcp kc hkc)

theorem wf_disconnectPlugin {s : ClientState} (pid : String)
    (hwf : WellFormed s) : WellFormed (disconnectPlugin s pid).1 := by
  obtain ⟨hpw, hcw, hcoh, hcp⟩ := hwf
  refine ⟨?_, hcw.sublist ((disconnectPlugin_conn_sublist s pid).map Prod.fst),
    ?_, ?_⟩
  · rw [disconnectPlugin_plugins]; exact hpw
  · intro kp hkp
    rw [disconnectPlugin_plugins] at hkp
    exact hcoh kp hkp
  · intro kc hkc
    rw [disconnectPlugin_plugins]
    exact hcp kc ((disconnectPlugin_conn_sublist s pid).subset hkc)

theorem wf_removePlugin {s : ClientState} (pid : String) (hwf : WellFormed s) :
    WellFormed { (disconnectPlugin s pid).1 with
      plugins := mapErase pid (disconnectPlugin s pid).1.plugins } := by
  have h₁ := wf_disconnectPlugin pid hwf
  obtain ⟨hpw, hcw, hcoh, hcp⟩ := h₁
  refine ⟨pairwise_keysOf_mapErase hpw, hcw, ?_, ?_⟩
  · intro kp hkp
    exact hcoh kp (mem_mapErase hkp)
  · intro kc hkc
    have hne : kc.1 ≠ pid := by
      intro he
      have h₂ := mapFind_isSome_of_mem_pair hkc
      rw [he, disconnectPlugin_find_none s pid
        (nodup_keysOf_of_pairwise hwf.2.1)] at h₂
      simp at h₂
    rw [mapFind_mapErase_ne hne]
    exact hcp kc hkc

theorem wf_init_insert {s : ClientState} {ident : String} {plugin : Plugin}
    (hwf : WellFormed s) (hfind : mapFind ident s.plugins = some plugin) :
    WellFormed { s with
      connections := mapInsert plugin.identifier
        ⟨plugin.identifier, s.nextSerial⟩ s.connections,
      nextSerial := s.nextSerial + 1 } := by
  obtain ⟨hpw, hcw, hcoh, hcp⟩ := hwf
  have hidm : plugin.identifier = ident := hcoh _ (mapFind_eq_some_mem hfind)
  refine ⟨hpw, pairwise_keysOf_mapInsert hcw, hcoh, ?_⟩
  intro kc hkc
  rcases mem_mapInsert hkc with he | hold
  · rw [he]
    show (mapFind plugin.identifier s.plugins).isSome
    rw [hidm, hfind]
    rfl
  · exact hcp kc hold

theorem wf_sbpAux {s : ClientState} (hwf : WellFormed s) :
    WellFormed (startBackgroundPluginsAux s.plugins s).1 := by
  obtain ⟨hpw, hcw, hcoh, hcp⟩ := hwf
  have h := sbpAux_conn_wf s.plugins s.plugins s
    (fun kp hkp => mapFind_isSome_of_mem_pair hkp) hcw hcp
  refine ⟨?_, h.1, ?_, ?_⟩
  · rw [sbpAux_plugins]; exact hpw
  · intro kp hkp
    rw [sbpAux_plugins] at hkp
    exact hcoh kp hkp
  · intro kc hkc
    rw [sbpAux_plugins]
    exact h.2 kc hkc

theorem wf_discAux {s : ClientState} (hwf : WellFormed s) :
    WellFormed (disconnectAllAux s.plugins s).1 := by
  obtain ⟨hpw, hcw, hcoh, hcp⟩ := hwf
  have hsub := discAux_conn_sublist s.plugins s
  refine ⟨?_, hcw.sublist (hsub.map Prod.fst), ?_, ?_⟩
  · rw [discAux_plugins]; exact hpw
  · intro kp hkp
    rw [discAux_plugins] at hkp
    exact hcoh kp hkp
  · intro kc hkc
    rw [discAux_plugins]
    exact hcp kc (hsub.subset hkc)

/-! ## Claim theorems -/

/-- C1: for every dispatcher entry point (addPlugin, removePlugin,
onConnected, onDisconnected, onMessageReceived) and every input, any
failure raised during execution is intercepted at the entry point's
boundary and never escapes to the caller as a raised failure; if the
bridge is connected the failure is converted into a structured error
message sent on the transport, otherwise it is recorded in a local log
line. -/
theorem raised_failures_never_escape (s : ClientState) (op : Op)
    (e : FlipperError) (s' : ClientState) (out : List Output)
    (h : coreOp s op = .raised e s' out) :
    (applyOp s op).crashed = false ∧
    (s'.connected = true →
      (applyOp s op).out = out ++ [.sendErrorReport e.what "<none>"]) ∧
    (s'.connected = false →
      (applyOp s op).out = out ++ [.log ("Error: " ++ e.what)]) := by
  unfold applyOp
  rw [h]
  by_cases hc : s'.connected = true
  · simp [performAndReportError, hc]
  · simp [performAndReportError, hc]

theorem raised_failures_never_escape_witness :
    (applyOp stateA (.addPlugin pluginA)).crashed = false ∧
    (applyOp stateA (.addPlugin pluginA)).out =
      [.log "FlipperClient::addPlugin a", .stepStart "Add plugin a"] ++
        [.log ("Error: " ++ FlipperError.what (.duplicatePlugin "a"))] := by
  have h := raised_failures_never_escape stateA (.addPlugin pluginA)
    (.duplicatePlugin "a") stateA
    [.log "FlipperClient::addPlugin a", .stepStart "Add plugin a"] (by rfl)
  exact ⟨h.1, h.2.2 (by rfl)⟩

/-- C2: whenever a plugin identifier is already registered, addPlugin
with a plugin of that same identifier fails with DuplicatePlugin
(thrown as `plugin <id> already added.`) and leaves the registry with
exactly one entry for that identifier, the registry unchanged. -/
theorem addPlugin_duplicate_rejected (s : ClientState) (p : Plugin)
    (hwf : WellFormed s) (h : (mapFind p.identifier s.plugins).isSome) :
    addPluginCore s p =
      .raised (.duplicatePlugin p.identifier) s
        [.log ("FlipperClient::addPlugin " ++ p.identifier),
         .stepStart ("Add plugin " ++ p.identifier)] ∧
    (applyOp s (.addPlugin p)).state = s ∧
    (keysOf s.plugins).count p.identifier = 1 := by
  have hcore : addPluginCore s p =
      .raised (.duplicatePlugin p.identifier) s
        [.log ("FlipperClient::addPlugin " ++ p.identifier),
         .stepStart ("Add plugin " ++ p.identifier)] := by
    unfold addPluginCore
    simp [h]
  refine ⟨hcore, ?_, ?_⟩
  · show (performAndReportError (addPluginCore s p)).state = s
    rw [hcore]
    by_cases hc : s.connected = true <;> simp [performAndReportError, hc]
  · exact List.count_eq_one_of_mem (nodup_keysOf_of_pairwise hwf.1)
      (mem_keysOf_of_mapFind_isSome h)

/-- C4: for every registered plugin with runInBackground() == true:
after onConnected() a connection entry exists for that plugin and its
didConnect callback was invoked exactly once; after onDisconnected()
the connection entry is gone and its didDisconnect callback was invoked
exactly once. -/
theorem background_plugins_connect_and_disconnect_once (s : ClientState)
    (pid : String) (p : Plugin) (hwf : WellFormed s)
    (hmem : (pid, p) ∈ s.plugins) (hbg : p.runInBackground = true) :
    (mapFind pid (applyOp s .onConnected).state.connections).isSome ∧
    (applyOp s .onConnected).out.countP (fun o => o.isDidConnectFor pid) = 1 ∧
    mapFind pid
        (applyOp (applyOp s .onConnected).state .onDisconnected).state.connections =
      none ∧
    (applyOp (applyOp s .onConnected).state .onDisconnected).out.countP
      (fun o => o.isDidDisconnectFor pid) = 1 := by
  obtain ⟨hpw, hcw, hcoh, hcp⟩ := hwf
  have hsome₁ : (mapFind pid
      (startBackgroundPluginsAux s.plugins { s with connected := true }).1.connections).isSome :=
    sbpAux_find_isSome_of_mem hbg s.plugins { s with connected := true } hmem
  have hconnwf := sbpAux_conn_wf s.plugins s.plugins { s with connected := true }
    (fun kp hkp => mapFind_isSome_of_mem_pair hkp) hcw hcp
  have hpl₁ : (startBackgroundPluginsAux s.plugins
      { s with connected := true }).1.plugins = s.plugins :=
    sbpAux_plugins s.plugins { s with connected := true }
  have hnd' : (keysOf (startBackgroundPluginsAux s.plugins
      { s with connected := true }).1.plugins).Nodup := by
    rw [hpl₁]
    exact nodup_keysOf_of_pairwise hpw
  have hcoh' : ∀ kp ∈ (startBackgroundPluginsAux s.plugins
      { s with connected := true }).1.plugins, kp.2.identifier = kp.1 := by
    rw [hpl₁]
    exact hcoh
  have hmem' : (pid, p) ∈ (startBackgroundPluginsAux s.plugins
      { s with connected := true }).1.plugins := by
    rw [hpl₁]
    exact hmem
  have hdisc := discAux_main
    (startBackgroundPluginsAux s.plugins { s with connected := true }).1.plugins
    { (startBackgroundPluginsAux s.plugins { s with connected := true }).1 with
      connected := false }
    hnd' hcoh' hmem' (nodup_keysOf_of_pairwise hconnwf.1) hsome₁
  refine ⟨hsome₁, ?_, hdisc.1, ?_⟩
  · show (Output.log "FlipperClient::onConnected" ::
        Output.log "Activating Background Plugins..." ::
        (startBackgroundPluginsAux s.plugins { s with connected := true }).2).countP
      (fun o => o.isDidConnectFor pid) = 1
    rw [List.countP_cons, List.countP_cons,
        sbpAux_countP pid s.plugins { s with connected := true },
        countP_background_eq_one hbg s.plugins
          (nodup_keysOf_of_pairwise hpw) hcoh hmem]
    simp [Output.isDidConnectFor]
  · show (([Output.log "FlipperClient::onDisconnected",
        Output.stepStart "Trigger onDisconnected callbacks"] ++
        (disconnectAllAux
          (startBackgroundPluginsAux s.plugins { s with connected := true }).1.plugins
          { (startBackgroundPluginsAux s.plugins
              { s with connected := true }).1 with connected := false }).2 ++
        [Output.stepComplete "Trigger onDisconnected callbacks"]).countP
      (fun o => o.isDidDisconnectFor pid)) = 1
    rw [List.countP_append, List.countP_append, hdisc.2]
    simp [Output.isDidDisconnectFor]

theorem background_plugins_connect_and_disconnect_once_witness :
    (mapFind "bg" (applyOp stateOnlyBg .onConnected).state.connections).isSome ∧
    (applyOp stateOnlyBg .onConnected).out.countP
      (fun o => o.isDidConnectFor "bg") = 1 ∧
    mapFind "bg"
        (applyOp (applyOp stateOnlyBg .onConnected).state
          .onDisconnected).state.connections = none ∧
    (applyOp (applyOp stateOnlyBg .onConnected).state .onDisconnected).out.countP
      (fun o => o.isDidDisconnectFor "bg") = 1 :=
  background_plugins_connect_and_disconnect_once stateOnlyBg "bg" pluginBg
    (by decide) (by decide) (by rfl)

/-- C5: every public operation (addPlugin, removePlugin, onConnected,
onDisconnected, onMessageReceived) preserves the state invariant: each
plugin identifier appears at most once in the registry (keys strictly
sorted), every plugin sits under its own identifier, and every
connection-table entry's identifier has a corresponding plugin entry in
the registry. -/
theorem public_operations_preserve_invariants (s : ClientState) (op : Op)
    (hwf : WellFormed s) : WellFormed (applyOp s op).state := by
  rw [applyOp_state]
  cases op with
  | addPlugin p =>
    show WellFormed (addPluginCore s p).stateOf
    simp only [addPluginCore]
    by_cases hdup : (mapFind p.identifier s.plugins).isSome
    · rw [if_pos hdup]
      exact hwf
    · rw [if_neg hdup]
      by_cases hc : ({ s with plugins := mapInsert p.identifier p s.plugins } :
          ClientState).connected = true
      · rw [if_pos hc]
        exact wf_insert_plugin p hwf
      · rw [if_neg hc]
        exact wf_insert_plugin p hwf
  | removePlugin p =>
    show WellFormed (removePluginCore s p).stateOf
    simp only [removePluginCore]
    by_cases hdup : (mapFind p.identifier s.plugins).isSome
    · rw [if_pos hdup]
      by_cases hc : ({ (disconnectPlugin s p.identifier).1 with
          plugins := mapErase p.identifier
            (disconnectPlugin s p.identifier).1.plugins } :
          ClientState).connected = true
      · rw [if_pos hc]
        exact wf_removePlugin p.identifier hwf
      · rw [if_neg hc]
        exact wf_removePlugin p.identifier hwf
    · rw [if_neg hdup]
      exact hwf
  | onConnected =>
    show WellFormed
      (startBackgroundPluginsAux s.plugins { s with connected := true }).1
    exact wf_sbpAux (s := { s with connected := true }) hwf
  | onDisconnected =>
    show WellFormed
      (disconnectAllAux s.plugins { s with connected := false }).1
    exact wf_discAux (s := { s with connected := false }) hwf
  | onMessageReceived msg =>
    show WellFormed (onMessageReceivedCore s msg).stateOf
    obtain ⟨mm, mi, mp⟩ := msg
    cases mm with
    | none => exact hwf
    | some m =>
      by_cases h1 : m = "getPlugins"
      · subst h1
        rw [core_getPlugins]
        cases mi <;> exact hwf
      · by_cases h2 : m = "init"
        · subst h2
          rw [core_init]
          cases hp : mp.bind MsgParams.plugin with
          | none => exact hwf
          | some ident =>
            cases hf : mapFind ident s.plugins with
            | none =>
              simp only [hf, CoreResult.stateOf]
              exact hwf
            | some plugin =>
              simp only [hf]
              by_cases hbg : plugin.runInBackground = true
              · rw [if_pos hbg]
                exact hwf
              · rw [if_neg hbg]
                exact wf_init_insert hwf hf
        · by_cases h3 : m = "deinit"
          · subst h3
            rw [core_deinit]
            cases hp : mp.bind MsgParams.plugin with
            | none => exact hwf
            | some ident =>
              cases hf : mapFind ident s.plugins with
              | none =>
                simp only [hf, CoreResult.stateOf]
                exact hwf
              | some plugin =>
                simp only [hf]
                by_cases hbg : plugin.runInBackground = true
                · rw [if_pos hbg]
                  exact hwf
                · rw [if_neg hbg]
                  exact wf_disconnectPlugin plugin.identifier hwf
          · by_cases h4 : m = "execute"
            · subst h4
              rw [core_execute]
              cases hp : mp.bind MsgParams.api with
              | none => exact hwf
              | some ident =>
                cases hf : mapFind ident s.connections with
                | none =>
                  simp only [hf, CoreResult.stateOf]
                  exact hwf
                | some conn =>
                  simp only [hf]
                  cases hq : mp.bind MsgParams.method with
                  | none => exact hwf
                  | some m₁ => exact hwf
            · rw [core_unknown s m mi mp h1 h2 h3 h4]
              cases mi <;> exact hwf

theorem public_operations_preserve_invariants_witness :
    WellFormed (applyOp stateOnlyBg .onConnected).state :=
  public_operations_preserve_invariants stateOnlyBg .onConnected (by decide)

/-- C6: for every state and every `execute` message whose `params.api`
identifier has no entry in the connection table, dispatch fails with
ConnectionNotFound and no plugin callback (didConnect, didDisconnect,
handleCall) is invoked. -/
theorem execute_without_connection_rejected (s : ClientState) (msg : Message)
    (ident : String)
    (hm : msg.method = some "execute")
    (ha : msg.params.bind MsgParams.api = some ident)
    (hc : mapFind ident s.connections = none) :
    onMessageReceivedCore s msg =
      .raised (.connectionNotFound ident "execute") s [] ∧
    (applyOp s (.onMessageReceived msg)).state = s ∧
    (applyOp s (.onMessageReceived msg)).out.countP
      (fun o => o.isPluginCallback) = 0 := by
  obtain ⟨mm, mi, mp⟩ := msg
  simp only [Message.method] at hm
  simp only [Message.params] at ha
  subst hm
  have hcore : onMessageReceivedCore s ⟨some "execute", mi, mp⟩ =
      .raised (.connectionNotFound ident "execute") s [] := by
    rw [core_execute]
    simp only [ha, hc]
  refine ⟨hcore, ?_, ?_⟩
  · show (performAndReportError
      (onMessageReceivedCore s ⟨some "execute", mi, mp⟩)).state = s
    rw [hcore]
    by_cases hcon : s.connected = true <;> simp [performAndReportError, hcon]
  · show (performAndReportError
      (onMessageReceivedCore s ⟨some "execute", mi, mp⟩)).out.countP
        (fun o => o.isPluginCallback) = 0
    rw [hcore]
    by_cases hcon : s.connected = true <;>
      simp [performAndReportError, hcon, Output.isPluginCallback]

theorem execute_without_connection_rejected_witness :
    onMessageReceivedCore stateA
        ⟨some "execute", some 5, some ⟨none, some "a", some "m", none⟩⟩ =
      .raised (.connectionNotFound "a" "execute") stateA [] ∧
    (applyOp stateA (.onMessageReceived
        ⟨some "execute", some 5, some ⟨none, some "a", some "m", none⟩⟩)).state =
      stateA ∧
    (applyOp stateA (.onMessageReceived
        ⟨some "execute", some 5, some ⟨none, some "a", some "m", none⟩⟩)).out.countP
      (fun o => o.isPluginCallback) = 0 :=
  execute_without_connection_rejected stateA
    ⟨some "execute", some 5, some ⟨none, some "a", some "m", none⟩⟩ "a"
    (by rfl) (by rfl) (by rfl)

/-- C7: for every registered plugin set, a `getPlugins` message
carrying an id yields a success response addressed to that id whose
payload is exactly the set of registered plugin identifiers, and no
plugin or connection state changes. -/
theorem getPlugins_returns_registry (s : ClientState) (msg : Message) (n : Int)
    (hm : msg.method = some "getPlugins") (hid : msg.id = some n) :
    applyOp s (.onMessageReceived msg) =
      ⟨s, [.respondSuccess n (keysOf s.plugins)], false⟩ ∧
    (∀ k : String, k ∈ keysOf s.plugins ↔ hasPlugin s k = true) := by
  obtain ⟨mm, mi, mp⟩ := msg
  simp only [Message.method] at hm
  simp only [Message.id] at hid
  subst hm; subst hid
  constructor
  · show performAndReportError
      (onMessageReceivedCore s ⟨some "getPlugins", some n, mp⟩) = _
    rw [core_getPlugins]
    rfl
  · intro k
    constructor
    · intro hk
      rcases List.mem_map.mp hk with ⟨⟨k₂, v⟩, hmem, hkeq⟩
      subst hkeq
      exact mapFind_isSome_of_mem hmem
    · intro hk
      exact mem_keysOf_of_mapFind_isSome hk

theorem getPlugins_returns_registry_witness :
    applyOp stateAB (.onMessageReceived ⟨some "getPlugins", some 7, none⟩) =
      ⟨stateAB, [.respondSuccess 7 (keysOf stateAB.plugins)], false⟩ :=
  (getPlugins_returns_registry stateAB ⟨some "getPlugins", some 7, none⟩ 7
    (by rfl) (by rfl)).1

/-- C8 counterexample: an unknown-method message that carries no id
dereferences the absent responder — the outcome is a crash (undefined
behaviour), not a normal, non-fatal outcome as the claim states for all
cases. -/
theorem unknown_method_without_id_crashes :
    applyOp ⟨[], [], true, 0⟩
        (.onMessageReceived ⟨some "unknownThing", none, none⟩) =
      ⟨⟨[], [], true, 0⟩, [], true⟩ := by
  rfl

/-- C8 amended: for every message whose method is not one of
getPlugins, init, deinit, execute and which carries an id, an error
response describing the unknown method is sent addressed to that id;
the outcome is normal and non-fatal, and no plugin or connection state
changes.  (Without an id the code dereferences the absent responder.) -/
theorem unknown_method_with_id_gets_error_response (s : ClientState)
    (msg : Message) (m : String) (n : Int)
    (hm : msg.method = some m) (hid : msg.id = some n)
    (h1 : m ≠ "getPlugins") (h2 : m ≠ "init") (h3 : m ≠ "deinit")
    (h4 : m ≠ "execute") :
    applyOp s (.onMessageReceived msg) =
      ⟨s, [.respondError n ("Received unknown method: " ++ m)], false⟩ := by
  obtain ⟨mm, mi, mp⟩ := msg
  simp only [Message.method] at hm
  simp only [Message.id] at hid
  subst hm; subst hid
  show performAndReportError (onMessageReceivedCore s ⟨some m, some n, mp⟩) = _
  rw [core_unknown s m (some n) mp h1 h2 h3 h4]
  rfl

theorem unknown_method_with_id_gets_error_response_witness :
    applyOp stateAB (.onMessageReceived ⟨some "unknownThing", some 3, none⟩) =
      ⟨stateAB, [.respondError 3 "Received unknown method: unknownThing"],
        false⟩ :=
  unknown_method_with_id_gets_error_response stateAB
    ⟨some "unknownThing", some 3, none⟩ "unknownThing" 3
    (by rfl) (by rfl) (by decide) (by decide) (by decide) (by decide)

/-- C3 counterexample: adding the background-capable plugin "bg" while
the bridge is connected succeeds and re-publishes the plugin list, but
no connection entry is established for it and its didConnect callback
is not invoked — refuting the claim's background-plugin clause. -/
theorem addPlugin_background_not_connected_cex :
    applyOp ⟨[], [], true, 0⟩ (.addPlugin pluginBg) =
      ⟨⟨[("bg", pluginBg)], [], true, 0⟩,
       [.log "FlipperClient::addPlugin bg", .stepStart "Add plugin bg",
        .stepComplete "Add plugin bg", .sendRefreshPlugins], false⟩ ∧
    mapFind "bg"
      (applyOp ⟨[], [], true, 0⟩ (.addPlugin pluginBg)).state.connections =
      none ∧
    (applyOp ⟨[], [], true, 0⟩ (.addPlugin pluginBg)).out.countP
      (fun o => o.isDidConnectFor "bg") = 0 := by
  decide

/-- C3 amended: for every successful addPlugin call made while the
bridge is connected, the plugin list is re-published to the remote side
(exactly one refreshPlugins notification); no connection entry is
established and no connect callback is invoked by addPlugin, even for
background-capable plugins. -/
theorem addPlugin_success_connected_refreshes (s : ClientState) (p : Plugin)
    (hnew : mapFind p.identifier s.plugins = none) (hc : s.connected = true) :
    applyOp s (.addPlugin p) =
      ⟨{ s with plugins := mapInsert p.identifier p s.plugins },
       [.log ("FlipperClient::addPlugin " ++ p.identifier),
        .stepStart ("Add plugin " ++ p.identifier),
        .stepComplete ("Add plugin " ++ p.identifier),
        .sendRefreshPlugins], false⟩ := by
  unfold applyOp coreOp addPluginCore
  simp [hnew, hc, performAndReportError]

theorem addPlugin_success_connected_refreshes_witness :
    applyOp stateAB (.addPlugin pluginBg) =
      ⟨{ stateAB with plugins := mapInsert "bg" pluginBg stateAB.plugins },
       [.log "FlipperClient::addPlugin bg", .stepStart "Add plugin bg",
        .stepComplete "Add plugin bg", .sendRefreshPlugins], false⟩ :=
  addPlugin_success_connected_refreshes stateAB pluginBg (by rfl) (by rfl)

/-- C9 counterexample: in a state where a connection handle (serial 0)
already exists for plugin "a", an `init` message for "a" creates a
fresh handle (serial 1) without confirming the table is free, replacing
the existing handle — refuting the claim's only-after-confirming
clause. -/
theorem init_replaces_existing_connection_cex :
    mapFind "a" stateConnA.connections = some ⟨"a", 0⟩ ∧
    (applyOp stateConnA (.onMessageReceived
        ⟨some "init", none, some ⟨some "a", none, none, none⟩⟩)).state.connections =
      [("a", ⟨"a", 1⟩)] :=
  ⟨rfl, rfl⟩

/-- C9 amended: at every well-formed state at most one connection entry
exists per identifier (the table keys stay strictly sorted, hence
duplicate-free), but the dispatcher installs a freshly created handle
unconditionally on `init`: after an `init` for a registered
non-background plugin the table holds the new handle (serial taken from
the state's counter) whether or not an entry already existed. -/
theorem init_installs_fresh_connection (s : ClientState) (msg : Message)
    (ident : String) (plugin : Plugin)
    (hwf : WellFormed s)
    (hm : msg.method = some "init")
    (hp : msg.params.bind MsgParams.plugin = some ident)
    (hfind : mapFind ident s.plugins = some plugin)
    (hbg : plugin.runInBackground = false) :
    (keysOf (applyOp s (.onMessageReceived msg)).state.connections).Nodup ∧
    mapFind plugin.identifier
        (applyOp s (.onMessageReceived msg)).state.connections =
      some ⟨plugin.identifier, s.nextSerial⟩ := by
  obtain ⟨mm, mi, mp⟩ := msg
  simp only [Message.method] at hm
  simp only [Message.params] at hp
  subst hm
  have hcore : onMessageReceivedCore s ⟨some "init", mi, mp⟩ =
      .ok { s with
            connections := mapInsert plugin.identifier
              ⟨plugin.identifier, s.nextSerial⟩ s.connections,
            nextSerial := s.nextSerial + 1 }
        [.didConnect plugin.identifier ⟨plugin.identifier, s.nextSerial⟩] := by
    rw [core_init]
    simp [hp, hfind, hbg]
  have hstate : (applyOp s (.onMessageReceived ⟨some "init", mi, mp⟩)).state =
      { s with
        connections := mapInsert plugin.identifier
          ⟨plugin.identifier, s.nextSerial⟩ s.connections,
        nextSerial := s.nextSerial + 1 } := by
    show (performAndReportError (onMessageReceivedCore s ⟨some "init", mi, mp⟩)).state = _
    rw [hcore]
    rfl
  rw [hstate]
  exact ⟨nodup_keysOf_of_pairwise (pairwise_keysOf_mapInsert hwf.2.1),
    mapFind_mapInsert_self _ _ _⟩

theorem init_installs_fresh_connection_witness :
    (keysOf (applyOp stateConnA (.onMessageReceived
        ⟨some "init", none, some ⟨some "a", none, none, none⟩⟩)).state.connections).Nodup ∧
    mapFind "a" (applyOp stateConnA (.onMessageReceived
        ⟨some "init", none, some ⟨some "a", none, none, none⟩⟩)).state.connections =
      some ⟨"a", 1⟩ :=
  init_installs_fresh_connection stateConnA
    ⟨some "init", none, some ⟨some "a", none, none, none⟩⟩ "a" pluginA
    (by decide) (by rfl) (by rfl) (by rfl) (by rfl)

/-- C10: processing `deinit` is idempotent for a registered
non-background plugin — the disconnect helper acts only when a
connection entry exists, so a second consecutive deinit leaves all
state unchanged, emits no output, and invokes no plugin callback. -/
theorem deinit_idempotent (s : ClientState) (msg : Message)
    (ident : String) (plugin : Plugin)
    (hnodup : (keysOf s.connections).Nodup)
    (hm : msg.method = some "deinit")
    (hp : msg.params.bind MsgParams.plugin = some ident)
    (hfind : mapFind ident s.plugins = some plugin)
    (hbg : plugin.runInBackground = false) :
    applyOp (applyOp s (.onMessageReceived msg)).state (.onMessageReceived msg) =
      ⟨(applyOp s (.onMessageReceived msg)).state, [], false⟩ := by
  obtain ⟨mm, mi, mp⟩ := msg
  simp only [Message.method] at hm
  simp only [Message.params] at hp
  subst hm
  have hcore1 : onMessageReceivedCore s ⟨some "deinit", mi, mp⟩ =
      .ok (disconnectPlugin s plugin.identifier).1
        (disconnectPlugin s plugin.identifier).2 := by
    rw [core_deinit]
    simp [hp, hfind, hbg]
  have hs1 : (applyOp s (.onMessageReceived ⟨some "deinit", mi, mp⟩)).state =
      (disconnectPlugin s plugin.identifier).1 := by
    show (performAndReportError (onMessageReceivedCore s ⟨some "deinit", mi, mp⟩)).state = _
    rw [hcore1]
    rfl
  rw [hs1]
  have hfind1 : mapFind ident (disconnectPlugin s plugin.identifier).1.plugins =
      some plugin := by
    rw [disconnectPlugin_plugins, hfind]
  have hnone : mapFind plugin.identifier
      (disconnectPlugin s plugin.identifier).1.connections = none :=
    disconnectPlugin_find_none s plugin.identifier hnodup
  have hcore2 : onMessageReceivedCore (disconnectPlugin s plugin.identifier).1
      ⟨some "deinit", mi, mp⟩ = .ok (disconnectPlugin s plugin.identifier).1 [] := by
    rw [core_deinit]
    simp [hp, hfind1, hbg, disconnectPlugin_none_eq _ _ hnone]
  show performAndReportError
      (onMessageReceivedCore (disconnectPlugin s plugin.identifier).1
        ⟨some "deinit", mi, mp⟩) = _
  rw [hcore2]
  rfl

theorem deinit_idempotent_witness :
    applyOp (applyOp stateConnA (.onMessageReceived
        ⟨some "deinit", none, some ⟨some "a", none, none, none⟩⟩)).state
      (.onMessageReceived ⟨some "deinit", none, some ⟨some "a", none, none, none⟩⟩) =
      ⟨(applyOp stateConnA (.onMessageReceived
          ⟨some "deinit", none, some ⟨some "a", none, none, none⟩⟩)).state,
        [], false⟩ :=
  deinit_idempotent stateConnA
    ⟨some "deinit", none, some ⟨some "a", none, none, none⟩⟩ "a" pluginA
    (by decide) (by rfl) (by rfl) (by rfl) (by rfl)

theorem addPlugin_duplicate_rejected_witness :
    addPluginCore stateA pluginA =
      .raised (.duplicatePlugin "a") stateA
        [.log "FlipperClient::addPlugin a", .stepStart "Add plugin a"] ∧
    (applyOp stateA (.addPlugin pluginA)).state = stateA ∧
    (keysOf stateA.plugins).count "a" = 1 :=
  addPlugin_duplicate_rejected stateA pluginA (by decide) (by decide)

end Flipper
